import Mathlib

/-!
Formal model of the context-pruning MCP server.

The definitions below are a shallow embedding of the TypeScript sources:
`types.ts` (data model), `pruning-engine.ts` (selection engine and rollback
buffer), `summarizer.ts` (hierarchical summarizer), `context-analyzer.ts`
(redundancy and importance scoring) and `services/bm25-scorer.ts` (lexical
ranker).  JavaScript numbers are modelled as rationals (`ℚ`), except where a
computation applies `Math.log`, which is modelled with `Real.log`.  JavaScript
`Map` objects and insertion-ordered sets are modelled as association lists.
-/

set_option maxRecDepth 40000

namespace ContextPruning

/-- `types.ts` `MessageType`: the fixed vocabulary of message type tags. -/
inductive MessageType where
  | query | code_change | file_operation | error | success | tool_use | summary
deriving DecidableEq, Repr

/-- `types.ts` `ConversationMessage.role`. -/
inductive Role where
  | user | assistant | system
deriving DecidableEq, Repr

/-- `types.ts` `CodeBlock`. -/
structure CodeBlock where
  language : String
  content : String
  startLine : Option ℚ := none
  endLine : Option ℚ := none
  filePath : Option String := none
deriving DecidableEq, Repr

/-- `types.ts` `ScoreBreakdown` (diagnostic sub-scores). -/
structure ScoreBreakdown where
  bm25Score : Option ℚ := none
  transformerScore : Option ℚ := none
  contextualScore : Option ℚ := none
  threadContinuity : Option ℚ := none
  referenceChainStrength : Option ℚ := none
  informationDensity : Option ℚ := none
deriving DecidableEq, Repr

/-- `types.ts` `ImportanceScore`. -/
structure ImportanceScore where
  total : ℚ
  recency : ℚ
  semantic : ℚ
  references : ℚ
  fileRelevance : ℚ
  coherence : Option ℚ := none
  computed : ℚ
  breakdown : Option ScoreBreakdown := none
deriving DecidableEq, Repr

/-- `types.ts` `MessageMetadata`. -/
structure MessageMetadata where
  tokenCount : ℚ
  fileReferences : List String
  codeBlocks : List CodeBlock
  hasError : Bool
  toolsUsed : List String
  importance : Option ImportanceScore := none
deriving DecidableEq, Repr

/-- `types.ts` `ConversationMessage`. -/
structure ConversationMessage where
  id : String
  timestamp : ℚ
  type : MessageType
  role : Role
  content : String
  metadata : MessageMetadata
deriving DecidableEq, Repr

/-- `types.ts` `PruningStrategy`.  The `name` field is kept as a string since
only the three stock names occur in `DEFAULT_STRATEGIES`. -/
structure PruningStrategy where
  name : String
  maxTokens : ℚ
  preserveRatio : ℚ
  summaryRatio : ℚ
  importanceThreshold : ℚ
  alwaysPreserve : List MessageType
deriving DecidableEq, Repr

/-- `types.ts` `SummaryLevel`. -/
inductive SummaryLevel where
  | immediate | session | project
deriving DecidableEq, Repr

/-- `types.ts` `Summary`. -/
structure Summary where
  id : String
  level : SummaryLevel
  content : String
  originalMessageIds : List String
  tokensSaved : ℚ
  timestamp : ℚ
deriving DecidableEq, Repr

/-- `types.ts` `RollbackData`. -/
structure RollbackData where
  pruningId : String
  removedMessages : List ConversationMessage
  originalOrder : List String
  timestamp : ℚ
deriving DecidableEq, Repr

/-- The effective importance used throughout `pruning-engine.ts`:
`message.metadata.importance?.total ?? 0`. -/
def importanceOf (m : ConversationMessage) : ℚ :=
  (m.metadata.importance.map (·.total)).getD 0

/-! ### JavaScript `Map` / insertion-ordered set model

A JavaScript `Map` iterates in insertion order; `set` on an existing key
overwrites in place, `delete` removes the entry.  We model it as an
association list with unique keys kept in insertion order. -/

/-- JS `Map.get`. -/
def jsMapGet {α : Type} (m : List (String × α)) (k : String) : Option α :=
  (m.find? (fun e => e.1 = k)).map (·.2)

/-- JS `Map.set`: overwrite in place if the key exists, else append. -/
def jsMapSet {α : Type} (m : List (String × α)) (k : String) (v : α) :
    List (String × α) :=
  if m.any (fun e => e.1 = k) then
    m.map (fun e => if e.1 = k then (k, v) else e)
  else
    m ++ [(k, v)]

/-- JS `Map.delete`: remove the entry with the given key. -/
def jsMapDelete {α : Type} (m : List (String × α)) (k : String) :
    List (String × α) :=
  m.filter (fun e => ¬ e.1 = k)

/-- JS `Set` insertion (`Set.add`): no-op on an already-present element,
otherwise append, keeping insertion order. -/
def jsSetAdd (s : List String) (x : String) : List String :=
  if x ∈ s then s else s ++ [x]

/-! ### Selection (pruning) engine: `pruning-engine.ts` -/

/-- `pruning-engine.ts` `isSummarizable`: token floor 50, errors excluded,
then code blocks or content longer than 200 characters qualify. -/
def isSummarizable (m : ConversationMessage) : Bool :=
  if m.metadata.tokenCount < 50 then false
  else if m.type = .error then false
  else if m.metadata.codeBlocks.length > 0 then true
  else if m.content.length > 200 then true
  else false

/-- `Number.MAX_SAFE_INTEGER`, the sort key of an unmatched entry in
`restoreOriginalOrder`. -/
def MAX_SAFE_INTEGER : ℚ := 2 ^ 53 - 1

/-- The importance-descending comparator used by `categorizeMessages`
(`(a, b) => bImportance - aImportance`).  JS `Array.prototype.sort` is
stable, and a stable sort by a total relation has a unique result, so the
JS sort is modelled by `List.insertionSort`, which is stable. -/
def byImportanceDesc (a b : ConversationMessage) : Prop :=
  importanceOf b ≤ importanceOf a

instance : DecidableRel byImportanceDesc :=
  fun a b => inferInstanceAs (Decidable (importanceOf b ≤ importanceOf a))

/-- `pruning-engine.ts` `restoreOriginalOrder`: stable sort by the index of
each id in the original list, unmatched ids sorting last. -/
def restoreOriginalOrder (messages originalOrder : List ConversationMessage) :
    List ConversationMessage :=
  let orderMap := originalOrder.enum.foldl
    (fun acc p => jsMapSet acc p.2.id (p.1 : ℚ)) []
  let ord := fun (m : ConversationMessage) =>
    (jsMapGet orderMap m.id).getD MAX_SAFE_INTEGER
  messages.insertionSort (fun a b => ord a ≤ ord b)

/-- Accumulator of the classification loop in `categorizeMessages`. -/
structure ClassifyState where
  preserved : List ConversationMessage
  toSummarize : List ConversationMessage
  toRemove : List ConversationMessage
  currentTokens : ℚ
deriving DecidableEq, Repr

/-- One iteration of the classification loop of `categorizeMessages`:
force-preserve by type, else preserve when important and within budget,
else route to the summarization pool or to removal. -/
def classifyStep (strategy : PruningStrategy) (st : ClassifyState)
    (message : ConversationMessage) : ClassifyState :=
  let shouldAlwaysPreserve := message.type ∈ strategy.alwaysPreserve
  let isHighImportance := importanceOf message ≥ strategy.importanceThreshold
  let wouldFitInBudget :=
    st.currentTokens + message.metadata.tokenCount ≤ strategy.maxTokens
  if shouldAlwaysPreserve ∨ (isHighImportance ∧ wouldFitInBudget) then
    { st with preserved := st.preserved ++ [message],
              currentTokens := st.currentTokens + message.metadata.tokenCount }
  else if isSummarizable message then
    { st with toSummarize := st.toSummarize ++ [message] }
  else
    { st with toRemove := st.toRemove ++ [message] }

/-- Clamping of a JS `Array.splice` start argument. -/
def jsSpliceStart (len : ℕ) (start : ℤ) : ℕ :=
  if start < 0 then ((len : ℤ) + start).toNat else min start.toNat len

/-- The preserve-ratio budget correction of `categorizeMessages`: when the
preserved token total exceeds `maxTokens * preserveRatio`, splice off the
tail of the preserved list at `floor(length * preserveRatio)` and move its
summarizable members to the pool, the rest to removal. -/
def budgetCorrect (strategy : PruningStrategy) (st : ClassifyState) :
    ClassifyState :=
  if st.currentTokens > strategy.maxTokens * strategy.preserveRatio then
    let k := jsSpliceStart st.preserved.length
      ⌊(st.preserved.length : ℚ) * strategy.preserveRatio⌋
    let excess := st.preserved.drop k
    { st with
      preserved := st.preserved.take k,
      toSummarize := st.toSummarize ++ excess.filter (fun m => isSummarizable m),
      toRemove := st.toRemove ++ excess.filter (fun m => ¬ isSummarizable m) }
  else st

/-- The three buckets returned by `categorizeMessages`. -/
structure Categorized where
  preserved : List ConversationMessage
  toRemove : List ConversationMessage
  toSummarize : List ConversationMessage
deriving DecidableEq, Repr

/-- The classification loop of `categorizeMessages`: sort by importance
descending, then route every message through `classifyStep`. -/
def classifyPhase (messages : List ConversationMessage)
    (strategy : PruningStrategy) : ClassifyState :=
  (messages.insertionSort byImportanceDesc).foldl (classifyStep strategy)
    ⟨[], [], [], 0⟩

/-- `pruning-engine.ts` `categorizeMessages`: sort by importance, classify,
apply the budget correction, admit the summarization pool greedily under
`maxTokens * summaryRatio`, and restore each bucket to original order. -/
def categorizeMessages (messages : List ConversationMessage)
    (strategy : PruningStrategy) : Categorized :=
  let st2 := budgetCorrect strategy (classifyPhase messages strategy)
  let summaryBudget := strategy.maxTokens * strategy.summaryRatio
  let summarizable := st2.toSummarize.insertionSort byImportanceDesc
  let adm := summarizable.foldl
    (fun (acc : List ConversationMessage × List ConversationMessage × ℚ)
         message =>
      if acc.2.2 + message.metadata.tokenCount ≤ summaryBudget then
        (acc.1 ++ [message], acc.2.1, acc.2.2 + message.metadata.tokenCount)
      else
        (acc.1, acc.2.1 ++ [message], acc.2.2))
    ([], st2.toRemove, 0)
  { preserved := restoreOriginalOrder st2.preserved messages
    toRemove := restoreOriginalOrder adm.2.1 messages
    toSummarize := restoreOriginalOrder adm.1 messages }

/-! ### Rollback buffer: `pruning-engine.ts` -/

/-- The mutable state of a `PruningEngine` relevant to undo: the bounded,
insertion-ordered rollback buffer (a JS `Map`). -/
structure PruningEngineState where
  rollbackHistory : List (String × RollbackData)
deriving DecidableEq, Repr

/-- `pruning-engine.ts` `MAX_ROLLBACK_HISTORY`. -/
def MAX_ROLLBACK_HISTORY : ℕ := 5

/-- `pruning-engine.ts` `storeRollbackData`: insert, then evict the oldest
entry when over capacity (the JS code skips eviction if the oldest key is
the falsy empty string). -/
def storeRollbackData (s : PruningEngineState) (id : String)
    (data : RollbackData) : PruningEngineState :=
  let h := jsMapSet s.rollbackHistory id data
  if h.length > MAX_ROLLBACK_HISTORY then
    match h.head? with
    | some e => if e.1 = "" then ⟨h⟩ else ⟨jsMapDelete h e.1⟩
    | none => ⟨h⟩
  else ⟨h⟩

/-- `pruning-engine.ts` `rollback`: report `false` for an unknown id,
otherwise delete the record (single use) and report `true`. -/
def rollback (s : PruningEngineState) (pruningId : String) :
    Bool × PruningEngineState :=
  match jsMapGet s.rollbackHistory pruningId with
  | none => (false, s)
  | some _ => (true, ⟨jsMapDelete s.rollbackHistory pruningId⟩)

/-! ### String helpers shared by the analyzer and the summarizer

JavaScript string operations are modelled over `List Char`; all inputs in
this development are ASCII, where `Char.toLower` agrees with JS
`toLowerCase`. -/

/-- JS `\s` (ASCII range). -/
def isWsChar (c : Char) : Bool :=
  c = ' ' ∨ c = '\t' ∨ c = '\n' ∨ c = '\r' ∨ c = '\x0b' ∨ c = '\x0c'

/-- JS `\w`: `[A-Za-z0-9_]`. -/
def isWordChar (c : Char) : Bool :=
  ('a' ≤ c ∧ c ≤ 'z') ∨ ('A' ≤ c ∧ c ≤ 'Z') ∨ ('0' ≤ c ∧ c ≤ '9') ∨ c = '_'

/-- JS `String.prototype.trim` (ASCII whitespace). -/
def jsTrim (s : List Char) : List Char :=
  ((s.dropWhile isWsChar).reverse.dropWhile isWsChar).reverse

/-- JS `.replace(/\s+/g, ' ')`: collapse whitespace runs to single spaces.
The flag records whether the previous character was whitespace. -/
def collapseWsAux : Bool → List Char → List Char
  | _, [] => []
  | prevWs, c :: rest =>
    if isWsChar c then
      if prevWs then collapseWsAux true rest
      else ' ' :: collapseWsAux true rest
    else c :: collapseWsAux false rest

/-- JS `.replace(/\s+/g, ' ')`. -/
def collapseWs (s : List Char) : List Char :=
  collapseWsAux false s

/-- JS `String.prototype.includes` over char lists. -/
def jsIncludes : List Char → List Char → Bool
  | [], sub => sub.isEmpty
  | hay@(_ :: rest), sub => sub.isPrefixOf hay || jsIncludes rest sub

/-- JS `String.prototype.toLowerCase` (ASCII). -/
def jsToLower (s : String) : String :=
  String.mk (s.data.map Char.toLower)

/-! ### Redundancy analyzer: `context-analyzer.ts` -/

/-- `context-analyzer.ts` `normalizeContent`: lowercase, collapse whitespace,
strip punctuation (`[^\w\s]`), trim. -/
def normalizeContent (content : String) : String :=
  String.mk (jsTrim (((collapseWs (content.data.map Char.toLower))).filter
    (fun c => isWordChar c ∨ isWsChar c)))

/-- `context-analyzer.ts` `calculateContentSimilarity`: the fraction of
messages whose normalized content duplicates an already-seen normalized
content (the content-duplication component of the redundancy score). -/
def calculateContentSimilarity (messages : List ConversationMessage) : ℚ :=
  let r := messages.foldl
    (fun (acc : List String × ℕ) message =>
      let normalizedContent := normalizeContent message.content
      if normalizedContent ∈ acc.1 then (acc.1, acc.2 + 1)
      else (acc.1 ++ [normalizedContent], acc.2))
    ([], 0)
  if messages.length > 0 then (r.2 : ℚ) / (messages.length : ℚ) else 0

/-- The `-`-joined key of a 3-gram of message types, as interpolated by
`calculatePatternRepetition`. -/
def typeKey : MessageType → String
  | .query => "query"
  | .code_change => "code_change"
  | .file_operation => "file_operation"
  | .error => "error"
  | .success => "success"
  | .tool_use => "tool_use"
  | .summary => "summary"

/-- `context-analyzer.ts` `calculatePatternRepetition`: fraction of repeated
3-gram windows of message types. -/
def calculatePatternRepetition (messages : List ConversationMessage) : ℚ :=
  let pats := ((messages.zip (messages.drop 1)).zip (messages.drop 2)).map
    (fun p => typeKey p.1.1.type ++ "-" ++ typeKey p.1.2.type ++ "-" ++
      typeKey p.2.type)
  let reps := (pats.foldl
    (fun (acc : List String × ℕ) p =>
      (acc.1 ++ [p], if p ∈ acc.1 then acc.2 + 1 else acc.2))
    ([], 0)).2
  if pats.length > 0 then (reps : ℚ) / (pats.length : ℚ) else 0

/-- `context-analyzer.ts` `calculateRedundancy`: arithmetic mean of content
duplication and pattern repetition, zero for fewer than two messages. -/
def calculateRedundancy (messages : List ConversationMessage) : ℚ :=
  if messages.length < 2 then 0
  else (calculateContentSimilarity messages +
    calculatePatternRepetition messages) / 2

/-! ### A small regular-expression engine

`summarizer.ts` matches its `SUMMARY_PATTERNS` with JS regexes carrying the
`g` and `i` flags.  The engine below models exactly the constructs those
three patterns use: case-insensitive literals, character classes, `(?:a|b)`
alternation, greedy `?` and `+`, lazy `.*?`, and the `$` anchor.  The
backtracking order (leftmost match, alternatives left to right, greedy
preferring presence/longer, lazy preferring shorter) follows the JS
semantics, and the `g`-flag driver resumes from `lastIndex` after each
match. -/

inductive Re where
  | epsR : Re
  | lit : String → Re
  | cls : (Char → Bool) → Re
  | alt : Re → Re → Re
  | seq : Re → Re → Re
  | optG : Re → Re
  | plusG : Re → Re
  | starG : Re → Re
  | starL : Re → Re
  | eos : Re

/-- `(?:a|b|c)` as right-nested binary alternation, left to right. -/
def reAlts : List Re → Re
  | [] => .cls (fun _ => false)
  | [r] => r
  | r :: rs => .alt r (reAlts rs)

/-- Structural size of a pattern, used to bound the matcher's fuel. -/
def reSize : Re → ℕ
  | .epsR => 1
  | .lit _ => 1
  | .cls _ => 1
  | .alt a b => 1 + reSize a + reSize b
  | .seq a b => 1 + reSize a + reSize b
  | .optG r => 1 + reSize r
  | .plusG r => 1 + reSize r
  | .starG r => 1 + reSize r
  | .starL r => 1 + reSize r
  | .eos => 1

/-- Case-insensitive literal prefix strip (the `i` flag). -/
def stripCI : List Char → List Char → Option (List Char)
  | [], s => some s
  | _ :: _, [] => none
  | w :: ws, c :: cs =>
    if w.toLower = c.toLower then stripCI ws cs else none

/-- Backtracking matcher: all ways `re` can match a prefix of `s`, as the
list of remaining suffixes in backtracking preference order.  The stars
guard against empty-body iterations as a JS engine does. -/
def mrun : ℕ → Re → List Char → List (List Char)
  | 0, _, _ => []
  | fuel + 1, re, s =>
    match re with
    | .epsR => [s]
    | .lit w =>
      match stripCI w.data s with
      | some rest => [rest]
      | none => []
    | .cls p =>
      match s with
      | [] => []
      | c :: rest => if p c then [rest] else []
    | .alt a b => mrun fuel a s ++ mrun fuel b s
    | .seq a b => (mrun fuel a s).flatMap (fun s' => mrun fuel b s')
    | .optG r => mrun fuel r s ++ [s]
    | .plusG r => (mrun fuel r s).flatMap (fun s' => mrun fuel (.starG r) s')
    | .starG r =>
      ((mrun fuel r s).flatMap (fun s' =>
        if s'.length < s.length then mrun fuel (.starG r) s' else [])) ++ [s]
    | .starL r =>
      [s] ++ (mrun fuel r s).flatMap (fun s' =>
        if s'.length < s.length then mrun fuel (.starL r) s' else [])
    | .eos => if s.isEmpty then [s] else []

/-- Length of the preferred match of `re` at the start of `s`, if any.  The
fuel `(|s| + 1) * (reSize re + 2)` bounds the backtracking depth: every
star iteration consumes at least one character and the remaining recursion
depth between consumptions is bounded by the pattern size. -/
def reMatchAt (re : Re) (s : List Char) : Option ℕ :=
  ((mrun ((s.length + 1) * (reSize re + 2)) re s).head?).map
    (fun rest => s.length - rest.length)

/-- First match of `re` in the suffix `s` that starts at offset `i` of the
subject string: `(start, end)` offsets into the subject.  Every position is
tried, including the empty suffix at the very end. -/
def reFindFromAux (re : Re) : ℕ → List Char → Option (ℕ × ℕ)
  | i, s =>
    match reMatchAt re s with
    | some len => some (i, i + len)
    | none =>
      match s with
      | [] => none
      | _ :: rest => reFindFromAux re (i + 1) rest

/-- First match of `re` in `s` at a position `≥ i`. -/
def reFindFrom (re : Re) (s : List Char) (i : ℕ) : Option (ℕ × ℕ) :=
  reFindFromAux re i (s.drop i)

/-- The `g`-flag loop: all non-overlapping matches from `lastIndex = 0`,
advancing past each match (by one position on an empty match). -/
def reFindAllAux (re : Re) (s : List Char) : ℕ → ℕ → List (ℕ × ℕ)
  | _, 0 => []
  | i, fuel + 1 =>
    match reFindFrom re s i with
    | none => []
    | some (a, b) =>
      (a, b) :: reFindAllAux re s (if a < b then b else b + 1) fuel

/-- JS `string.match(re)` with the `g` flag (`null` is modelled as `[]`). -/
def jsMatch (re : Re) (s : String) : List String :=
  (reFindAllAux re s.data 0 (s.data.length + 1)).map
    (fun p => String.mk ((s.data.drop p.1).take (p.2 - p.1)))

/-- `a?` applied to the trailing letter of an alternative (e.g. `created?`). -/
def litOptD (stem : String) (tail : String) : Re :=
  .seq (.lit stem) (.optG (.lit tail))

/-- JS `.` (any char except line terminators). -/
def dotCls : Re := .cls (fun c => ¬ (c = '\n' ∨ c = '\r'))

/-- `\s` as a pattern atom. -/
def wsCls : Re := .cls isWsChar

/-- `[\w]` as a pattern atom. -/
def wordCls : Re := .cls isWordChar

/-- `summarizer.ts` `SUMMARY_PATTERNS.codeChanges`:
`/(?:created?|updated?|modified|deleted?|refactored?|implemented?)\s+.*?(?:function|class|method|file|component)/gi`. -/
def patCodeChanges : Re :=
  .seq (reAlts [litOptD "create" "d", litOptD "update" "d", .lit "modified",
      litOptD "delete" "d", litOptD "refactore" "d", litOptD "implemente" "d"])
    (.seq (.plusG wsCls)
      (.seq (.starL dotCls)
        (reAlts [.lit "function", .lit "class", .lit "method", .lit "file",
          .lit "component"])))

/-- `summarizer.ts` `SUMMARY_PATTERNS.errors`:
`/(?:error|exception|failed?|bug|issue).*?(?:\n|$)/gi`. -/
def patErrors : Re :=
  .seq (reAlts [.lit "error", .lit "exception", litOptD "faile" "d",
      .lit "bug", .lit "issue"])
    (.seq (.starL dotCls) (reAlts [.lit "\n", .eos]))

/-- `summarizer.ts` `SUMMARY_PATTERNS.fileOperations`:
`/(?:read|wrote|edited|created|deleted)\s+.*?\.[\w]+/gi`. -/
def patFileOperations : Re :=
  .seq (reAlts [.lit "read", .lit "wrote", .lit "edited", .lit "created",
      .lit "deleted"])
    (.seq (.plusG wsCls)
      (.seq (.starL dotCls) (.seq (.lit ".") (.plusG wordCls))))

/-! ### Hierarchical summarizer: `summarizer.ts` -/

/-- `summarizer.ts` `MAX_SUMMARY_LENGTH`: per-level character budgets. -/
def MAX_SUMMARY_LENGTH : SummaryLevel → ℕ
  | .immediate => 200
  | .session => 500
  | .project => 1000

/-- `summarizer.ts` `cleanExtractedText`: trim, collapse whitespace, strip a
leading and a trailing non-word run, lowercase. -/
def cleanExtractedText (text : String) : String :=
  let t := collapseWs (jsTrim text.data)
  let t := t.dropWhile (fun c => ¬ isWordChar c)
  let t := (t.reverse.dropWhile (fun c => ¬ isWordChar c)).reverse
  String.mk (t.map Char.toLower)

/-- `summarizer.ts` `extractActivities`: keyword-bucket membership collected
into an insertion-ordered set. -/
def extractActivities (messages : List ConversationMessage) : List String :=
  messages.foldl
    (fun activities message =>
      let content := (jsToLower message.content).data
      let activities :=
        if jsIncludes content "implement".data || jsIncludes content "create".data
        then jsSetAdd activities "implementation" else activities
      let activities :=
        if jsIncludes content "fix".data || jsIncludes content "debug".data
        then jsSetAdd activities "debugging" else activities
      let activities :=
        if jsIncludes content "refactor".data || jsIncludes content "improve".data
        then jsSetAdd activities "refactoring" else activities
      let activities :=
        if jsIncludes content "test".data || jsIncludes content "verify".data
        then jsSetAdd activities "testing" else activities
      if message.metadata.toolsUsed.length > 0
      then jsSetAdd activities "tool usage" else activities)
    []

/-- `summarizer.ts` `extractCodeChanges`: pattern matches (cleaned) plus one
entry per code block (file path if truthy, else language), capped at 5. -/
def extractCodeChanges (messages : List ConversationMessage) : List String :=
  (messages.foldl
    (fun changes message =>
      let changes := (jsMatch patCodeChanges message.content).foldl
        (fun ch m => jsSetAdd ch (cleanExtractedText m)) changes
      message.metadata.codeBlocks.foldl
        (fun ch codeBlock =>
          match codeBlock.filePath with
          | some fp =>
            if fp = "" then jsSetAdd ch (codeBlock.language ++ " code")
            else jsSetAdd ch ("modified " ++ fp)
          | none => jsSetAdd ch (codeBlock.language ++ " code"))
        changes)
    []).take 5

/-- `summarizer.ts` `extractFileOperations`: pattern matches (cleaned) plus a
`worked on <file>` entry per referenced file, capped at 3. -/
def extractFileOperations (messages : List ConversationMessage) : List String :=
  (messages.foldl
    (fun operations message =>
      let operations := (jsMatch patFileOperations message.content).foldl
        (fun ops m => jsSetAdd ops (cleanExtractedText m)) operations
      message.metadata.fileReferences.foldl
        (fun ops file => jsSetAdd ops ("worked on " ++ file)) operations)
    []).take 3

/-- `summarizer.ts` `extractErrors`: pattern matches from error-flagged
messages only, capped at 2. -/
def extractErrors (messages : List ConversationMessage) : List String :=
  (messages.foldl
    (fun errors message =>
      if message.metadata.hasError then
        (jsMatch patErrors message.content).foldl
          (fun es m => jsSetAdd es (cleanExtractedText m)) errors
      else errors)
    []).take 2

/-- `summarizer.ts` `determineOutcome`: outcome label for a segment's last
message. -/
def determineOutcome (messages : List ConversationMessage) : String :=
  match messages.getLast? with
  | none => ""
  | some lastMessage =>
    if lastMessage.metadata.hasError then "unresolved"
    else if lastMessage.type = .success
        ∨ jsIncludes (jsToLower lastMessage.content).data "complete".data
        ∨ jsIncludes (jsToLower lastMessage.content).data "done".data then
      "completed successfully"
    else if lastMessage.type = .code_change then "implemented changes"
    else "in progress"

/-- JS `String.prototype.lastIndexOf` for a single character (`-1` if
absent). -/
def jsLastIndexOf (s : List Char) (c : Char) : ℤ :=
  match s.reverse.findIdx? (· = c) with
  | none => -1
  | some k => (s.length : ℤ) - 1 - k

/-- `summarizer.ts` `truncateSummary`: cut at the last sentence terminator
when it falls past 70% of the budget, else hard-truncate and append an
ellipsis. -/
def truncateSummary (summary : String) (maxLength : ℕ) : String :=
  if summary.length ≤ maxLength then summary
  else
    let truncated := summary.data.take maxLength
    let lastSentenceEnd : ℤ := max (jsLastIndexOf truncated '.')
      (max (jsLastIndexOf truncated '!') (jsLastIndexOf truncated '?'))
    if (lastSentenceEnd : ℚ) > (maxLength : ℚ) * (7 / 10) then
      String.mk (truncated.take (lastSentenceEnd + 1).toNat)
    else
      String.mk truncated ++ "..."

/-- `summarizer.ts` `generateSummaryContent`: concatenate the present
sections in fixed order, then truncate to the level's budget. -/
def generateSummaryContent (messages : List ConversationMessage)
    (level : SummaryLevel) : String :=
  let maxLength := MAX_SUMMARY_LENGTH level
  let activities := extractActivities messages
  let codeChanges := extractCodeChanges messages
  let fileOperations := extractFileOperations messages
  let errors := extractErrors messages
  let summary := ""
  let summary := if activities.length > 0 then
    summary ++ "Activities: " ++ String.intercalate ", " activities ++ ". "
    else summary
  let summary := if codeChanges.length > 0 then
    summary ++ "Code changes: " ++ String.intercalate ", " codeChanges ++ ". "
    else summary
  let summary := if fileOperations.length > 0 then
    summary ++ "File operations: " ++ String.intercalate ", " fileOperations ++ ". "
    else summary
  let summary := if errors.length > 0 then
    summary ++ "Errors encountered: " ++ String.intercalate ", " errors ++ ". "
    else summary
  let outcome := determineOutcome messages
  let summary := if outcome = "" then summary
    else summary ++ "Outcome: " ++ outcome
  truncateSummary summary maxLength

/-- `Math.ceil(content.length / 4)`: the token estimate used by both
`summarizer.ts` and `pruning-engine.ts`. -/
def estimateTokens (content : String) : ℚ :=
  (((content.length + 3) / 4 : ℕ) : ℚ)

/-- `summarizer.ts` `calculateTokensSaved`. -/
def calculateTokensSaved (originalMessages : List ConversationMessage)
    (summaryContent : String) : ℚ :=
  max 0 ((originalMessages.map (·.metadata.tokenCount)).sum -
    estimateTokens summaryContent)

/-- Deduplicate preserving first occurrence (`new Set(array)` iterated in
insertion order). -/
def toJsSet (l : List String) : List String :=
  l.foldl jsSetAdd []

/-- `summarizer.ts` `hasSignificantFileContextChange`: Jaccard similarity of
the two file sets below 0.3 (false when the old set is empty).  Both
arguments are deduplicated sets. -/
def hasSignificantFileContextChange (oldFiles newFiles : List String) : Bool :=
  if oldFiles.length = 0 then false
  else
    let intersection := oldFiles.filter (fun f => f ∈ newFiles)
    let union := toJsSet (oldFiles ++ newFiles)
    decide ((intersection.length : ℚ) / (union.length : ℚ) < 3 / 10)

/-- `summarizer.ts` `segmentByInteraction`: cut after an assistant message
once the running segment has at least two messages including a user one. -/
def segmentByInteraction (messages : List ConversationMessage) :
    List (List ConversationMessage) :=
  let r := messages.foldl
    (fun (acc : List (List ConversationMessage) × List ConversationMessage)
         message =>
      let currentSegment := acc.2 ++ [message]
      if message.role = .assistant ∧ currentSegment.length ≥ 2 ∧
          currentSegment.any (fun m => m.role = .user) then
        (acc.1 ++ [currentSegment], [])
      else (acc.1, currentSegment))
    ([], [])
  if r.2.length > 0 then r.1 ++ [r.2] else r.1

/-- `summarizer.ts` `segmentByTopic`: cut on a significant file-context
change or at 10 messages; the running file set resets only on a
size-triggered cut. -/
def segmentByTopic (messages : List ConversationMessage) :
    List (List ConversationMessage) :=
  let r := messages.foldl
    (fun (acc : List (List ConversationMessage) × List ConversationMessage ×
          List String) message =>
      let segments := acc.1
      let currentSegment := acc.2.1
      let lastFiles := acc.2.2
      let messageFiles := toJsSet message.metadata.fileReferences
      let hasFileContextChange :=
        hasSignificantFileContextChange lastFiles messageFiles
      let (segments, currentSegment) :=
        if hasFileContextChange ∧ currentSegment.length > 0 then
          (segments ++ [currentSegment], [])
        else (segments, currentSegment)
      let currentSegment := currentSegment ++ [message]
      let lastFiles := toJsSet (lastFiles ++ messageFiles)
      if currentSegment.length ≥ 10 then (segments ++ [currentSegment], [], [])
      else (segments, currentSegment, lastFiles))
    ([], [], [])
  if r.2.1.length > 0 then r.1 ++ [r.2.1] else r.1

/-- `summarizer.ts` `segmentByFileContext`: group by first referenced file
(first-seen order), unreferenced messages forming a single leading segment.
A message whose first file reference is the falsy empty string is dropped,
as in the JS truthiness guard. -/
def segmentByFileContext (messages : List ConversationMessage) :
    List (List ConversationMessage) :=
  let r := messages.foldl
    (fun (acc : List (String × List ConversationMessage) ×
          List ConversationMessage) message =>
      if message.metadata.fileReferences.length > 0 then
        match message.metadata.fileReferences.head? with
        | some primaryFile =>
          if primaryFile = "" then acc
          else
            let group := (jsMapGet acc.1 primaryFile).getD []
            (jsMapSet acc.1 primaryFile (group ++ [message]), acc.2)
        | none => acc
      else (acc.1, acc.2 ++ [message]))
    ([], [])
  let segments := r.1.map (·.2)
  if r.2.length > 0 then [r.2] ++ segments else segments

/-- `summarizer.ts` `segmentConversation`: level-specific segmentation. -/
def segmentConversation (messages : List ConversationMessage)
    (level : SummaryLevel) : List (List ConversationMessage) :=
  match level with
  | .immediate => segmentByInteraction messages
  | .session => segmentByTopic messages
  | .project => segmentByFileContext messages

/-- `summarizer.ts` `createSummary`.  The summary id and creation timestamp
come from `generateSummaryId()` / `Date.now()`; they are threaded in as
parameters `sid` and `now` of the pure embedding. -/
def createSummary (messages : List ConversationMessage) (level : SummaryLevel)
    (sid : String) (now : ℚ) : Option Summary :=
  if messages.length = 0 then none
  else
    let summaryContent := generateSummaryContent messages level
    if jsTrim summaryContent.data = [] then none
    else some
      { id := sid
        level := level
        content := summaryContent
        originalMessageIds := messages.map (·.id)
        tokensSaved := calculateTokensSaved messages summaryContent
        timestamp := now }

/-- `summarizer.ts` `createSummaries`: one summary per non-empty segment.
`ids k` supplies the random id of the `k`-th segment's summary. -/
def createSummaries (messages : List ConversationMessage)
    (level : SummaryLevel) (ids : ℕ → String) (now : ℚ) : List Summary :=
  (segmentConversation messages level).enum.filterMap
    (fun p => createSummary p.2 level (ids p.1) now)

/-! ### The pruning operation: `pruning-engine.ts` `prune`

The embedding covers the message path of `prune` for a context without the
optional `systemContext` and `toolResultHistory` extras: with both absent
the enhanced token total reduces to the sum of the message token counts and
the optimized system/tool-result token contributions are 0.  `prune` is
modelled from the point where `scoreMessages` has annotated the context's
messages: `messages` below are the scored messages.  (`scoreMessages` maps
over the context's messages in order, changing only the `importance`
annotation, so ids, ordering and token counts agree between the two lists
the TS code uses.)  The pruning id, the current time and the summary ids
are threaded in as parameters. -/

/-- `types.ts` `PruningResult`. -/
structure PruningResult where
  originalTokens : ℚ
  finalTokens : ℚ
  reductionPercent : ℚ
  messagesRemoved : ℕ
  messagesSummarized : ℕ
  summariesCreated : List Summary
  rollbackData : RollbackData
deriving DecidableEq, Repr

/-- `pruning-engine.ts` `calculateTotalTokens`. -/
def calculateTotalTokens (messages : List ConversationMessage) : ℚ :=
  (messages.map (·.metadata.tokenCount)).sum

/-- `pruning-engine.ts` `summariesToMessages`: wrap each summary as a
synthetic assistant message with fixed importance. -/
def summariesToMessages (now : ℚ) (summaries : List Summary) :
    List ConversationMessage :=
  summaries.map (fun summary =>
    { id := summary.id
      timestamp := summary.timestamp
      type := .summary
      role := .assistant
      content := "[SUMMARY] " ++ summary.content
      metadata :=
        { tokenCount := estimateTokens summary.content
          fileReferences := []
          codeBlocks := []
          hasError := false
          toolsUsed := []
          importance := some
            { total := 8 / 10, recency := 9 / 10, semantic := 8 / 10,
              references := 7 / 10, fileRelevance := 6 / 10,
              computed := now } } })

/-- `pruning-engine.ts` `prune` (message path, see above): categorize,
summarize the pool at the `session` level, record rollback data in the
bounded buffer, and report token totals and counts. -/
def prune (s : PruningEngineState) (messages : List ConversationMessage)
    (strategy : PruningStrategy) (pruningId : String) (now : ℚ)
    (summaryIds : ℕ → String) : PruningResult × PruningEngineState :=
  let originalTokens := calculateTotalTokens messages
  let cat := categorizeMessages messages strategy
  let summariesCreated := createSummaries cat.toSummarize .session summaryIds now
  let rollbackData : RollbackData :=
    { pruningId := pruningId
      removedMessages := cat.toRemove
      originalOrder := messages.map (·.id)
      timestamp := now }
  let s' := storeRollbackData s pruningId rollbackData
  let finalMessageTokens := calculateTotalTokens
    (cat.preserved ++ summariesToMessages now summariesCreated)
  let finalTokens := finalMessageTokens
  ({ originalTokens := originalTokens
     finalTokens := finalTokens
     reductionPercent := ((originalTokens - finalTokens) / originalTokens) * 100
     messagesRemoved := cat.toRemove.length
     messagesSummarized := cat.toSummarize.length
     summariesCreated := summariesCreated
     rollbackData := rollbackData }, s')

/-! ### Lexical ranker: `services/bm25-scorer.ts` -/

/-- Split a char list into its maximal non-whitespace chunks.  Models
`.split(/\s+/)`: JS may additionally emit one empty leading field, which the
subsequent `.filter(token => token.length > 1)` removes in either case. -/
def wsChunks (s : List Char) : List (List Char) :=
  go s []
where
  go : List Char → List Char → List (List Char)
    | [], cur => if cur = [] then [] else [cur.reverse]
    | c :: rest, cur =>
      if isWsChar c then
        (if cur = [] then go rest [] else cur.reverse :: go rest [])
      else go rest (c :: cur)

/-- Modelled from the spec: "remove stopwords" — the source delegates to the
third-party `stopword` package's English list, which is not part of this
repository.  The list below covers the standard English stopwords; every
concrete token appearing in this development is on neither this list nor the
package's. -/
def isStopword (w : String) : Bool :=
  w ∈ ["a", "about", "above", "after", "again", "against", "all", "am", "an",
    "and", "any", "are", "as", "at", "be", "because", "been", "before",
    "being", "below", "between", "both", "but", "by", "can", "did", "do",
    "does", "doing", "down", "during", "each", "few", "for", "from",
    "further", "had", "has", "have", "having", "he", "her", "here", "hers",
    "herself", "him", "himself", "his", "how", "i", "if", "in", "into", "is",
    "it", "its", "itself", "just", "me", "more", "most", "my", "myself",
    "no", "nor", "not", "now", "of", "off", "on", "once", "only", "or",
    "other", "our", "ours", "ourselves", "out", "over", "own", "same",
    "she", "should", "so", "some", "such", "than", "that", "the", "their",
    "theirs", "them", "themselves", "then", "there", "these", "they",
    "this", "those", "through", "to", "too", "under", "until", "up",
    "very", "was", "we", "were", "what", "when", "where", "which", "while",
    "who", "whom", "why", "will", "with", "you", "your", "yours",
    "yourself", "yourselves"]

/-- Modelled from the spec: "stem" — the source stems with the third-party
`natural` package's Porter stemmer, which is not part of this repository.
Modelled as the identity map; every concrete token appearing in this
development ("zebra", "cat", "dog", "fox") is a fixed point of the Porter
stemmer. -/
def porterStem (w : String) : String := w

/-- `bm25-scorer.ts` `preprocessText`: lowercase, replace punctuation with
spaces, split on whitespace, drop tokens of length ≤ 1, remove stopwords,
stem. -/
def preprocessText (text : String) : List String :=
  let tokens := (wsChunks ((text.data.map Char.toLower).map
      (fun c => if isWordChar c ∨ isWsChar c then c else ' '))).map String.mk
  let tokens := tokens.filter (fun t => t.length > 1)
  let withoutStopwords := tokens.filter (fun t => ¬ isStopword t)
  withoutStopwords.map porterStem

/-- `bm25-scorer.ts` `DocumentStats`. -/
structure DocumentStats where
  termFreq : List (String × ℕ)
  totalTerms : ℕ
  normalizedLength : ℚ
deriving DecidableEq, Repr

/-- The fields of a `BM25Scorer` instance: the immutable parameters `k1`,
`b` and the mutable corpus statistics. -/
structure BM25State where
  k1 : ℚ
  b : ℚ
  documentStats : List DocumentStats
  globalTermFreq : List (String × ℕ)
  averageDocLength : ℚ
  totalDocuments : ℕ
deriving DecidableEq, Repr

/-- `new BM25Scorer(parameters)`: fresh, unindexed corpus state. -/
def BM25State.init (k1 b : ℚ) : BM25State :=
  ⟨k1, b, [], [], 0, 0⟩

/-- `bm25-scorer.ts` `indexDocuments`: per-document and global term
frequencies, average document length, normalized lengths.  (When every
document is empty the JS length normalization divides by zero giving `NaN`;
the rational model gives `0`.  No claim depends on that corner.) -/
def indexDocuments (s : BM25State) (documents : List String) : BM25State :=
  let r := documents.foldl
    (fun (acc : List DocumentStats × List (String × ℕ) × ℕ) doc =>
      let terms := preprocessText doc
      let termFreq := terms.foldl
        (fun tf term => jsMapSet tf term ((jsMapGet tf term).getD 0 + 1)) []
      let global := terms.foldl
        (fun g term => jsMapSet g term ((jsMapGet g term).getD 0 + 1)) acc.2.1
      (acc.1 ++ [⟨termFreq, terms.length, (terms.length : ℚ)⟩], global,
        acc.2.2 + terms.length))
    (([], [], 0) : List DocumentStats × List (String × ℕ) × ℕ)
  let totalDocuments := documents.length
  let averageDocLength :=
    if totalDocuments > 0 then (r.2.2 : ℚ) / (totalDocuments : ℚ) else 0
  { s with
    documentStats := r.1.map (fun ds =>
      { ds with normalizedLength := (ds.totalTerms : ℚ) / averageDocLength })
    globalTermFreq := r.2.1
    averageDocLength := averageDocLength
    totalDocuments := totalDocuments }

/-- `bm25-scorer.ts` `calculateScore`: BM25 sum over query terms present in
the document, floored at zero.  The code feeds `globalTermFreq[term]` — the
term's total occurrence count across the corpus — into the IDF. -/
noncomputable def calculateScore (s : BM25State) (query : String)
    (documentIndex : ℕ) : ℝ :=
  if documentIndex ≥ s.documentStats.length then 0
  else
    match s.documentStats.get? documentIndex with
    | none => 0
    | some docStats =>
      let queryTerms := preprocessText query
      let score : ℝ := queryTerms.foldl
        (fun sc term =>
          let termFreqInDoc := (jsMapGet docStats.termFreq term).getD 0
          let termFreqInCorpus := (jsMapGet s.globalTermFreq term).getD 0
          if termFreqInDoc = 0 then sc
          else
            let idf := Real.log (((s.totalDocuments : ℝ) -
              (termFreqInCorpus : ℝ) + 1 / 2) / ((termFreqInCorpus : ℝ) + 1 / 2))
            let tfComponent := ((termFreqInDoc : ℝ) * ((s.k1 : ℝ) + 1)) /
              ((termFreqInDoc : ℝ) + (s.k1 : ℝ) *
                (1 - (s.b : ℝ) + (s.b : ℝ) * (docStats.normalizedLength : ℝ)))
            sc + idf * tfComponent)
        0
      max 0 score

/-- Number of indexed documents containing a term. -/
def docFreq (s : BM25State) (term : String) : ℕ :=
  (s.documentStats.filter
    (fun ds => (jsMapGet ds.termFreq term).getD 0 ≠ 0)).length

/-- Modelled from the spec: the BM25 score as §4.1 states it, identical to
`calculateScore` except that the IDF uses
`df = number of documents containing the term`, not the term's total
occurrence count.  This is the comparison definition for the refinement
claim about the scoring formula. -/
noncomputable def calculateScoreSpec (s : BM25State) (query : String)
    (documentIndex : ℕ) : ℝ :=
  if documentIndex ≥ s.documentStats.length then 0
  else
    match s.documentStats.get? documentIndex with
    | none => 0
    | some docStats =>
      let queryTerms := preprocessText query
      let score : ℝ := queryTerms.foldl
        (fun sc term =>
          let termFreqInDoc := (jsMapGet docStats.termFreq term).getD 0
          let df := docFreq s term
          if termFreqInDoc = 0 then sc
          else
            let idf := Real.log (((s.totalDocuments : ℝ) -
              (df : ℝ) + 1 / 2) / ((df : ℝ) + 1 / 2))
            let tfComponent := ((termFreqInDoc : ℝ) * ((s.k1 : ℝ) + 1)) /
              ((termFreqInDoc : ℝ) + (s.k1 : ℝ) *
                (1 - (s.b : ℝ) + (s.b : ℝ) * (docStats.normalizedLength : ℝ)))
            sc + idf * tfComponent)
        0
      max 0 score

/-- `bm25-scorer.ts` `calculateSimilarity`: temporarily index the two texts
as a mini-corpus, score each against the other, normalize by the self-score
maximum, and restore the previous corpus state in the `finally` block. -/
noncomputable def calculateSimilarity (s : BM25State) (text1 text2 : String) :
    ℝ × BM25State :=
  let indexed := indexDocuments s [text1, text2]
  let score1 := calculateScore indexed text2 0
  let score2 := calculateScore indexed text1 1
  let maxPossibleScore := max (calculateScore indexed text1 0)
    (calculateScore indexed text2 1)
  let sim := if 0 < maxPossibleScore then ((score1 + score2) / 2) / maxPossibleScore
    else 0
  (sim,
    { indexed with
      documentStats := s.documentStats
      globalTermFreq := s.globalTermFreq
      averageDocLength := s.averageDocLength
      totalDocuments := s.totalDocuments })

/-! ### Analyzer-side BM25 component: `context-analyzer.ts` -/

/-- `types.ts` `BM25Parameters`. -/
structure BM25Parameters where
  k1 : ℚ
  b : ℚ
deriving DecidableEq, Repr

/-- `types.ts` `ScoringWeights`. -/
structure ScoringWeights where
  recency : ℚ
  semantic : ℚ
  references : ℚ
  fileRelevance : ℚ
  coherence : ℚ
deriving DecidableEq, Repr

/-- `types.ts` `HybridScoringConfig`. -/
structure HybridScoringConfig where
  bm25Weight : ℚ
  transformerWeight : ℚ
  contextualWeight : ℚ
deriving DecidableEq, Repr

/-- `types.ts` `ScoringProfile` (the per-type weight table is a total
function on the closed type vocabulary). -/
structure ScoringProfile where
  name : String
  weights : ScoringWeights
  semanticKeywords : List String
  typeWeights : MessageType → ℚ
  coherenceThreshold : ℚ
  bm25Parameters : BM25Parameters
  hybridScoring : HybridScoringConfig

/-- The analyzer state relevant to the lexical component: the active profile
and the `BM25Scorer` instance held in the `bm25Scorer` field. -/
structure ContextAnalyzerState where
  currentProfile : ScoringProfile
  bm25Scorer : BM25State

/-- `new ContextAnalyzer(profile)`: the scorer is freshly constructed from
the profile's BM25 parameters.  No method of the analyzer ever calls
`indexDocuments` on it: `scoreMessages` / `analyze` read it as-is. -/
def mkContextAnalyzer (profile : ScoringProfile) : ContextAnalyzerState :=
  ⟨profile, BM25State.init profile.bm25Parameters.k1 profile.bm25Parameters.b⟩

/-- `context-analyzer.ts` `getRecentContext`: the window
`slice(max(0, i - w), min(length, i + w + 1))`. -/
def getRecentContext (messageIndex : ℕ)
    (allMessages : List ConversationMessage) (windowSize : ℕ) :
    List ConversationMessage :=
  (allMessages.take (min allMessages.length (messageIndex + windowSize + 1))).drop
    (messageIndex - windowSize)

/-- The combined query built by `calculateBM25Score`: profile keywords
joined with the contents of a ±3 window, trimmed. -/
def bm25CombinedQuery (profile : ScoringProfile)
    (allMessages : List ConversationMessage) (messageIndex : ℕ) : String :=
  let profileKeywords := String.intercalate " " profile.semanticKeywords
  let contextMessages := getRecentContext messageIndex allMessages 3
  let contextQuery := String.intercalate " " (contextMessages.map (·.content))
  String.mk (jsTrim (profileKeywords ++ " " ++ contextQuery).data)

/-- `context-analyzer.ts` `calculateBM25Score`: the lexical component of the
hybrid semantic score, as computed during a scoring pass, reading the
analyzer's `bm25Scorer` state. -/
noncomputable def calculateBM25Score (a : ContextAnalyzerState)
    (allMessages : List ConversationMessage) (messageIndex : ℕ) : ℝ :=
  let combinedQuery := bm25CombinedQuery a.currentProfile allMessages messageIndex
  if combinedQuery.length = 0 then 1 / 2
  else min 1 (calculateScore a.bm25Scorer combinedQuery messageIndex / 10)
/-! ### Concrete inputs used in the theorems below -/

/-- A message with content `"hello"` (used for the redundancy claims). -/
def c6msg1 : ConversationMessage :=
  { id := "m1", timestamp := 0, type := .query, role := .user,
    content := "hello",
    metadata := { tokenCount := 1, fileReferences := [], codeBlocks := [],
                  hasError := false, toolsUsed := [], importance := none } }

/-- A second message, byte-identical content, distinct id. -/
def c6msg2 : ConversationMessage := { c6msg1 with id := "m2" }

/-- High-importance 60-token query message. -/
def c2msgA : ConversationMessage :=
  { id := "msg_a", timestamp := 0, type := .query, role := .user, content := "",
    metadata :=
      { tokenCount := 60, fileReferences := [], codeBlocks := [],
        hasError := false, toolsUsed := [],
        importance := some
          { total := 9 / 10, recency := 0, semantic := 0,
            references := 0, fileRelevance := 0, computed := 0 } } }

/-- Low-importance 60-token error message (a force-preserved type). -/
def c2msgB : ConversationMessage :=
  { id := "msg_b", timestamp := 0, type := .error, role := .assistant,
    content := "",
    metadata :=
      { tokenCount := 60, fileReferences := [], codeBlocks := [],
        hasError := true, toolsUsed := [],
        importance := some
          { total := 1 / 10, recency := 0, semantic := 0,
            references := 0, fileRelevance := 0, computed := 0 } } }

/-- Strategy that always preserves `error` messages, with a preserve-ratio
budget small enough to trigger the correction. -/
def c2strat : PruningStrategy :=
  { name := "balanced", maxTokens := 100, preserveRatio := 1 / 2,
    summaryRatio := 3 / 10, importanceThreshold := 0,
    alwaysPreserve := [.error] }

/-- 10-token error message for the C2 witness. -/
def c2wmsg : ConversationMessage :=
  { id := "msg_w", timestamp := 0, type := .error, role := .assistant,
    content := "",
    metadata :=
      { tokenCount := 10, fileReferences := [], codeBlocks := [],
        hasError := true, toolsUsed := [],
        importance := some
          { total := 0, recency := 0, semantic := 0,
            references := 0, fileRelevance := 0, computed := 0 } } }

/-- 30-token query message with importance 0.5 (below a 0.9 threshold). -/
def c3msg : ConversationMessage :=
  { id := "msg_c", timestamp := 0, type := .query, role := .user, content := "",
    metadata :=
      { tokenCount := 30, fileReferences := [], codeBlocks := [],
        hasError := false, toolsUsed := [],
        importance := some
          { total := 1 / 2, recency := 0, semantic := 0,
            references := 0, fileRelevance := 0, computed := 0 } } }

/-- Strategy whose max tokens (1000) far exceeds the context total (30) but
whose importance threshold (0.9) the message does not meet. -/
def c3strat : PruningStrategy :=
  { name := "conservative", maxTokens := 1000, preserveRatio := 1 / 2,
    summaryRatio := 1 / 2, importanceThreshold := 9 / 10,
    alwaysPreserve := [] }

/-- 10-token high-importance message for the C3 witness. -/
def c3wmsg : ConversationMessage :=
  { id := "msg_w3", timestamp := 0, type := .query, role := .user,
    content := "",
    metadata :=
      { tokenCount := 10, fileReferences := [], codeBlocks := [],
        hasError := false, toolsUsed := [],
        importance := some
          { total := 1, recency := 0, semantic := 0,
            references := 0, fileRelevance := 0, computed := 0 } } }

/-- Strategy for the C3 witness: budget 100 over a 10-token context. -/
def c3wstrat : PruningStrategy :=
  { name := "conservative", maxTokens := 100, preserveRatio := 1 / 2,
    summaryRatio := 1 / 5, importanceThreshold := 0, alwaysPreserve := [] }

/-- A 300-character file path with no sentence terminator. -/
def c7path : String := String.mk (List.replicate 300 'a')

/-- Message whose only summarizable signal is a code block with the long
dotless file path; its content is empty. -/
def c7msg : ConversationMessage :=
  { id := "m7", timestamp := 0, type := .query, role := .user, content := "",
    metadata :=
      { tokenCount := 60, fileReferences := [],
        codeBlocks := [{ language := "ts", content := "",
                         filePath := some c7path }],
        hasError := false, toolsUsed := [], importance := none } }

/-- The pre-truncation summary text generated for `[c7msg]`. -/
def c7summary : String :=
  "Code changes: " ++ ("modified " ++ c7path) ++ ". " ++
    ("Outcome: " ++ "in progress")

/-- Summarizable message (code block, 60 tokens, below-threshold score). -/
def c10msg : ConversationMessage :=
  { id := "m10", timestamp := 0, type := .query, role := .user, content := "",
    metadata :=
      { tokenCount := 60, fileReferences := [],
        codeBlocks := [{ language := "ts", content := "", filePath := none }],
        hasError := false, toolsUsed := [],
        importance := some
          { total := 1 / 2, recency := 0, semantic := 0, references := 0,
            fileRelevance := 0, computed := 0 } } }

/-- Strategy that routes `c10msg` into the summarization pool. -/
def c10strat : PruningStrategy :=
  { name := "balanced", maxTokens := 100, preserveRatio := 1 / 2,
    summaryRatio := 1, importanceThreshold := 1, alwaysPreserve := [] }

/-- The summary that pruning `[c10msg]` produces. -/
def c10summary : Summary :=
  { id := "summary_10", level := .session,
    content := "Code changes: ts code. Outcome: in progress",
    originalMessageIds := ["m10"], tokensSaved := 49, timestamp := 0 }

/-- Four-document corpus in which `zebra` occurs twice in one document and
in no other (`df = 1` but total occurrences `= 2`). -/
def c5docs : List String := ["zebra zebra", "cat", "dog", "fox"]

/-- The scorer state after indexing `c5docs` with the default constructor
parameters `k1 = 1.2`, `b = 0.75`. -/
def c5state : BM25State := indexDocuments (BM25State.init (6 / 5) (3 / 4)) c5docs

/-- `c5state` spelled out. -/
def c5stateE : BM25State :=
  { k1 := 6 / 5, b := 3 / 4,
    documentStats :=
      [ { termFreq := [("zebra", 2)], totalTerms := 2, normalizedLength := 8 / 5 },
        { termFreq := [("cat", 1)], totalTerms := 1, normalizedLength := 4 / 5 },
        { termFreq := [("dog", 1)], totalTerms := 1, normalizedLength := 4 / 5 },
        { termFreq := [("fox", 1)], totalTerms := 1, normalizedLength := 4 / 5 } ],
    globalTermFreq := [("zebra", 2), ("cat", 1), ("dog", 1), ("fox", 1)],
    averageDocLength := 5 / 4,
    totalDocuments := 4 }

/-- 40-token query for the C1 witness. -/
def c1msgA : ConversationMessage :=
  { id := "msg_1a", timestamp := 0, type := .query, role := .user,
    content := "",
    metadata :=
      { tokenCount := 40, fileReferences := [], codeBlocks := [],
        hasError := false, toolsUsed := [],
        importance := some
          { total := 1, recency := 0, semantic := 0,
            references := 0, fileRelevance := 0, computed := 0 } } }

/-- 30-token error message for the C1 witness. -/
def c1msgB : ConversationMessage :=
  { id := "msg_1b", timestamp := 0, type := .error, role := .assistant,
    content := "",
    metadata :=
      { tokenCount := 30, fileReferences := [], codeBlocks := [],
        hasError := true, toolsUsed := [],
        importance := some
          { total := 0, recency := 0, semantic := 0,
            references := 0, fileRelevance := 0, computed := 0 } } }

/-- Strategy for the C1 witness. -/
def c1strat : PruningStrategy :=
  { name := "balanced", maxTokens := 200, preserveRatio := 1 / 2,
    summaryRatio := 1 / 4, importanceThreshold := 1 / 2,
    alwaysPreserve := [.error] }

/-! ## Theorems -/

theorem jsMapGet_eq_none_iff {α : Type} (m : List (String × α)) (k : String) :
    jsMapGet m k = none ↔ k ∉ m.map Prod.fst := by
  simp only [jsMapGet, Option.map_eq_none', List.find?_eq_none, List.mem_map,
    decide_eq_true_eq]
  constructor
  · rintro h ⟨e, he, hk⟩
    exact h e he hk
  · intro h e he hk
    exact h ⟨e, he, hk⟩

theorem jsMapGet_delete_self {α : Type} (m : List (String × α)) (k : String) :
    jsMapGet (jsMapDelete m k) k = none := by
  simp only [jsMapGet, Option.map_eq_none', List.find?_eq_none, jsMapDelete]
  intro e he
  have := List.of_mem_filter he
  simpa using this

/-- **C9** For every undo-buffer state and operation identifier, `rollback`
reports success iff a record with that identifier is in the buffer, reports
failure (a boolean, never an exception) exactly when none is, and a
successful rollback deletes the record, so that a second rollback with the
same identifier reports failure. -/
theorem rollback_success_iff (s : PruningEngineState) (pruningId : String) :
    ((rollback s pruningId).1 = true ↔
      pruningId ∈ s.rollbackHistory.map Prod.fst)
    ∧ ((rollback s pruningId).1 = false ↔
      pruningId ∉ s.rollbackHistory.map Prod.fst)
    ∧ (rollback (rollback s pruningId).2 pruningId).1 = false := by
  rcases hg : jsMapGet s.rollbackHistory pruningId with _ | d
  · have hnot := (jsMapGet_eq_none_iff s.rollbackHistory pruningId).mp hg
    refine ⟨?_, ?_, ?_⟩ <;> simp [rollback, hg, hnot]
  · have hmem : pruningId ∈ s.rollbackHistory.map Prod.fst := by
      by_contra hnot
      rw [← jsMapGet_eq_none_iff] at hnot
      rw [hg] at hnot
      exact Option.noConfusion hnot
    refine ⟨?_, ?_, ?_⟩
    · simp [rollback, hg, hmem]
    · simp [rollback, hg, hmem]
    · simp [rollback, hg, jsMapGet_delete_self]

/-- **C8** Computing the pairwise BM25 similarity of two texts leaves the
ranker's persistent corpus state (document statistics, global term
frequencies, average document length, document count) exactly as before the
call, so subsequent scoring against the prior corpus is unaffected. -/
theorem calculateSimilarity_restores_state (s : BM25State) (t1 t2 : String) :
    (calculateSimilarity s t1 t2).2 = s
    ∧ ∀ (query : String) (documentIndex : ℕ),
      calculateScore (calculateSimilarity s t1 t2).2 query documentIndex
        = calculateScore s query documentIndex := by
  have h : (calculateSimilarity s t1 t2).2 = s := by
    cases s
    rfl
  exact ⟨h, fun query documentIndex => by rw [h]⟩

theorem calculateScore_of_unindexed (k1 b : ℚ) (query : String)
    (documentIndex : ℕ) :
    calculateScore (BM25State.init k1 b) query documentIndex = 0 := by
  simp [calculateScore, BM25State.init]

/-- **C4** In a scoring pass, the lexical (BM25) component of every
message's hybrid score is computed against the analyzer's `bm25Scorer`
state, which is the never-indexed initial state: the component equals `0.5`
when the combined query is empty and `0` otherwise, for every context and
every message index — no corpus statistics over the context's messages are
ever built, contradicting the stats-before-scoring contract. -/
theorem lexical_component_ignores_corpus (profile : ScoringProfile)
    (allMessages : List ConversationMessage) (messageIndex : ℕ) :
    calculateBM25Score (mkContextAnalyzer profile) allMessages messageIndex
      = if (bm25CombinedQuery profile allMessages messageIndex).length = 0
        then 1 / 2 else 0 := by
  simp only [calculateBM25Score, mkContextAnalyzer, calculateScore_of_unindexed]
  split
  · rfl
  · norm_num

/-! C6: content-duplication component on all-identical contexts. -/

/-- **C6 counterexample** A two-message context of byte-identical contents
has content-duplication component `1/2`, not `1.0`: the first occurrence is
not counted as a duplicate. -/
theorem contentSimilarity_identical_pair_ne_one :
    c6msg1.content = c6msg2.content
    ∧ calculateContentSimilarity [c6msg1, c6msg2] = 1 / 2
    ∧ (1 / 2 : ℚ) ≠ 1 := by
  refine ⟨rfl, ?_, by norm_num⟩
  norm_num [calculateContentSimilarity, normalizeContent, c6msg1, c6msg2,
    collapseWs, collapseWsAux, jsTrim, isWsChar, isWordChar]

theorem contentSimilarity_fold_dup (v : String)
    (tail : List ConversationMessage) :
    ∀ (seen : List String) (cnt : ℕ),
    (∀ m ∈ tail, normalizeContent m.content = v) → v ∈ seen →
    ((tail.foldl
      (fun (acc : List String × ℕ) message =>
        let normalizedContent := normalizeContent message.content
        if normalizedContent ∈ acc.1 then (acc.1, acc.2 + 1)
        else (acc.1 ++ [normalizedContent], acc.2))
      (seen, cnt)).2 : ℚ) = cnt + tail.length := by
  induction tail with
  | nil => intro seen cnt _ _; simp
  | cons m rest ih =>
    intro seen cnt hall hv
    have hm : normalizeContent m.content = v := hall m (List.mem_cons_self _ _)
    have hrest : ∀ x ∈ rest, normalizeContent x.content = v :=
      fun x hx => hall x (List.mem_cons_of_mem _ hx)
    simp only [List.foldl_cons, hm, if_pos hv]
    rw [ih seen (cnt + 1) hrest hv]
    simp only [List.length_cons]
    push_cast
    ring

/-- **C6 amended** For every context of `n ≥ 2` messages of byte-identical
content, the content-duplication component of the redundancy score equals
`(n - 1) / n` (every message after the first counts as a duplicate), not
`1.0`. -/
theorem contentSimilarity_identical_messages (messages : List ConversationMessage)
    (c : String) (h2 : 2 ≤ messages.length)
    (hsame : ∀ m ∈ messages, m.content = c) :
    calculateContentSimilarity messages
      = ((messages.length : ℚ) - 1) / (messages.length : ℚ) := by
  match messages, h2 with
  | m0 :: rest, _ =>
    have hm0 : m0.content = c := hsame m0 (List.mem_cons_self _ _)
    have hrest : ∀ x ∈ rest, normalizeContent x.content = normalizeContent c :=
      fun x hx => by rw [hsame x (List.mem_cons_of_mem _ hx)]
    have hfold := contentSimilarity_fold_dup (normalizeContent c) rest
      [normalizeContent c] 0 hrest (List.mem_singleton.mpr rfl)
    simp only [calculateContentSimilarity, List.foldl_cons, hm0]
    rw [if_neg (List.not_mem_nil _)]
    simp only [List.nil_append, List.length_cons]
    rw [if_pos (Nat.succ_pos rest.length)]
    rw [hfold]
    push_cast
    ring

/-- **C6 witness** The amended statement at the concrete two-message
context. -/
theorem contentSimilarity_identical_messages_witness :
    2 ≤ ([c6msg1, c6msg2] : List ConversationMessage).length
    ∧ calculateContentSimilarity [c6msg1, c6msg2]
      = ((([c6msg1, c6msg2] : List ConversationMessage).length : ℚ) - 1)
        / (([c6msg1, c6msg2] : List ConversationMessage).length : ℚ) :=
  ⟨by norm_num,
   contentSimilarity_identical_messages [c6msg1, c6msg2] "hello"
     (by norm_num)
     (by
       intro m hm
       simp only [List.mem_cons, List.not_mem_nil, or_false] at hm
       rcases hm with rfl | rfl
       · rfl
       · rfl)⟩

/-! C2: force-preserve versus the preserve-ratio budget correction. -/

/-- **C2 counterexample** A message of an always-preserve type can be
demoted by the preserve-ratio budget correction: the low-importance `error`
message lands in the discard bucket, not the preserved partition. -/
theorem force_preserve_demoted_by_budget_correction :
    c2msgB.type ∈ c2strat.alwaysPreserve
    ∧ c2msgB ∉ (categorizeMessages [c2msgA, c2msgB] c2strat).preserved
    ∧ c2msgB ∈ (categorizeMessages [c2msgA, c2msgB] c2strat).toRemove := by
  have hpres : (categorizeMessages [c2msgA, c2msgB] c2strat).preserved
      = [c2msgA] := by
    norm_num [categorizeMessages, classifyPhase, classifyStep, budgetCorrect,
      restoreOriginalOrder, isSummarizable, importanceOf, c2msgA, c2msgB,
      c2strat, jsMapGet, jsMapSet, MAX_SAFE_INTEGER, jsSpliceStart,
      List.insertionSort, List.orderedInsert, byImportanceDesc]
  have hrem : (categorizeMessages [c2msgA, c2msgB] c2strat).toRemove
      = [c2msgB] := by
    norm_num [categorizeMessages, classifyPhase, classifyStep, budgetCorrect,
      restoreOriginalOrder, isSummarizable, importanceOf, c2msgA, c2msgB,
      c2strat, jsMapGet, jsMapSet, MAX_SAFE_INTEGER, jsSpliceStart,
      List.insertionSort, List.orderedInsert, byImportanceDesc]
  refine ⟨by decide, ?_, by rw [hrem]; exact List.mem_singleton.mpr rfl⟩
  rw [hpres]
  intro h
  have : c2msgB = c2msgA := List.mem_singleton.mp h
  simp [c2msgA, c2msgB] at this

theorem classify_preserved_mono (strategy : PruningStrategy)
    (msgs : List ConversationMessage) :
    ∀ (st : ClassifyState) (m : ConversationMessage),
    m ∈ st.preserved → m ∈ (msgs.foldl (classifyStep strategy) st).preserved := by
  induction msgs with
  | nil => intro st m hm; exact hm
  | cons x xs ih =>
    intro st m hm
    simp only [List.foldl_cons]
    apply ih
    unfold classifyStep
    dsimp only
    split
    · simp [hm]
    · split
      · exact hm
      · exact hm

theorem classify_always_preserved (strategy : PruningStrategy)
    (msgs : List ConversationMessage) :
    ∀ (st : ClassifyState) (m : ConversationMessage), m ∈ msgs →
    m.type ∈ strategy.alwaysPreserve →
    m ∈ (msgs.foldl (classifyStep strategy) st).preserved := by
  induction msgs with
  | nil => intro st m hm; cases hm
  | cons x xs ih =>
    intro st m hm hty
    rcases List.mem_cons.mp hm with rfl | hm2
    · simp only [List.foldl_cons]
      apply classify_preserved_mono
      unfold classifyStep
      dsimp only
      rw [if_pos (Or.inl hty)]
      simp
    · exact ih _ m hm2 hty

/-- **C2 amended** Every message of an always-preserve type enters the
preserved partition in the classification loop, and stays there whenever
the preserve-ratio budget correction does not fire (classified preserved
tokens within `maxTokens * preserveRatio`); the correction may otherwise
demote such a message. -/
theorem force_preserved_kept_without_correction
    (messages : List ConversationMessage) (strategy : PruningStrategy)
    (hbudget : (classifyPhase messages strategy).currentTokens ≤
      strategy.maxTokens * strategy.preserveRatio)
    (m : ConversationMessage) (hm : m ∈ messages)
    (hty : m.type ∈ strategy.alwaysPreserve) :
    m ∈ (categorizeMessages messages strategy).preserved := by
  have h1 : m ∈ (classifyPhase messages strategy).preserved := by
    unfold classifyPhase
    exact classify_always_preserved strategy _ _ m
      ((List.perm_insertionSort byImportanceDesc messages).mem_iff.mpr hm) hty
  have hbc : budgetCorrect strategy (classifyPhase messages strategy)
      = classifyPhase messages strategy := by
    unfold budgetCorrect
    rw [if_neg (not_lt.mpr hbudget)]
  show m ∈ (categorizeMessages messages strategy).preserved
  unfold categorizeMessages
  simp only [hbc]
  exact (List.perm_insertionSort _ _).mem_iff.mpr h1

/-- **C2 witness** The amended statement at a concrete input where the
budget correction does not fire. -/
theorem force_preserved_kept_without_correction_witness :
    (classifyPhase [c2wmsg] c2strat).currentTokens ≤
      c2strat.maxTokens * c2strat.preserveRatio
    ∧ c2wmsg ∈ (categorizeMessages [c2wmsg] c2strat).preserved := by
  have hb : (classifyPhase [c2wmsg] c2strat).currentTokens ≤
      c2strat.maxTokens * c2strat.preserveRatio := by
    norm_num [classifyPhase, classifyStep, importanceOf, c2wmsg, c2strat,
      List.insertionSort, List.orderedInsert, byImportanceDesc]
  exact ⟨hb, force_preserved_kept_without_correction [c2wmsg] c2strat hb c2wmsg
    (List.mem_singleton.mpr rfl) (by decide)⟩

/-! C3: no-op pruning under a large budget. -/

/-- **C3 counterexample** With max tokens far above the context total,
pruning is not a no-op: a below-threshold message that is too short to
summarize is removed (and the reported reduction is 100%, not 0%). -/
theorem prune_not_noop_below_threshold :
    calculateTotalTokens [c3msg] < c3strat.maxTokens
    ∧ (prune ⟨[]⟩ [c3msg] c3strat "prune_1" 0
        (fun _ => "summary_1")).1.messagesRemoved = 1
    ∧ (prune ⟨[]⟩ [c3msg] c3strat "prune_1" 0
        (fun _ => "summary_1")).1.reductionPercent = 100 := by
  refine ⟨by norm_num [calculateTotalTokens, c3msg, c3strat], ?_, ?_⟩ <;>
    norm_num [prune, categorizeMessages, classifyPhase, classifyStep,
      budgetCorrect, restoreOriginalOrder, isSummarizable, importanceOf,
      createSummaries, segmentConversation, segmentByTopic, calculateTotalTokens,
      summariesToMessages, storeRollbackData, jsMapGet, jsMapSet,
      MAX_SAFE_INTEGER, jsSpliceStart, List.insertionSort, List.orderedInsert,
      byImportanceDesc, c3msg, c3strat]

theorem classify_all_preserved (strategy : PruningStrategy)
    (msgs : List ConversationMessage) :
    ∀ (st : ClassifyState),
    (∀ m ∈ msgs, m.type ∈ strategy.alwaysPreserve ∨
      strategy.importanceThreshold ≤ importanceOf m) →
    (∀ m ∈ msgs, 0 ≤ m.metadata.tokenCount) →
    st.currentTokens + (msgs.map (·.metadata.tokenCount)).sum ≤
      strategy.maxTokens →
    msgs.foldl (classifyStep strategy) st =
      ⟨st.preserved ++ msgs, st.toSummarize, st.toRemove,
       st.currentTokens + (msgs.map (·.metadata.tokenCount)).sum⟩ := by
  induction msgs with
  | nil => intro st _ _ _; simp
  | cons x xs ih =>
    intro st hcond htok hbud
    have hsumxs : 0 ≤ (xs.map (·.metadata.tokenCount)).sum := by
      apply List.sum_nonneg
      intro t ht
      rcases List.mem_map.mp ht with ⟨m, hm, rfl⟩
      exact htok m (List.mem_cons_of_mem _ hm)
    have hfit : st.currentTokens + x.metadata.tokenCount ≤ strategy.maxTokens := by
      have : (((x :: xs).map (·.metadata.tokenCount)).sum : ℚ)
          = x.metadata.tokenCount + (xs.map (·.metadata.tokenCount)).sum := by
        simp
      rw [this] at hbud
      linarith
    have hstep : classifyStep strategy st x =
        ⟨st.preserved ++ [x], st.toSummarize, st.toRemove,
         st.currentTokens + x.metadata.tokenCount⟩ := by
      unfold classifyStep
      dsimp only
      rw [if_pos]
      rcases hcond x (List.mem_cons_self _ _) with h | h
      · exact Or.inl h
      · exact Or.inr ⟨h, hfit⟩
    rw [List.foldl_cons, hstep,
      ih _ (fun m hm => hcond m (List.mem_cons_of_mem _ hm))
        (fun m hm => htok m (List.mem_cons_of_mem _ hm))
        (by simpa [add_assoc] using hbud)]
    simp [add_assoc]

/-- **C3 amended** If the strategy's max tokens exceed the (positive)
context total, every message is either of an always-preserve type or meets
the importance threshold, token counts are non-negative, and the total also
fits in the preserve-ratio share `maxTokens * preserveRatio`, then pruning
is a no-op: zero removed, zero summarized, reduction 0%. -/
theorem prune_noop (s : PruningEngineState)
    (messages : List ConversationMessage) (strategy : PruningStrategy)
    (pruningId : String) (now : ℚ) (summaryIds : ℕ → String)
    (htok : ∀ m ∈ messages, 0 ≤ m.metadata.tokenCount)
    (_hpos : 0 < calculateTotalTokens messages)
    (hmax : calculateTotalTokens messages < strategy.maxTokens)
    (hcond : ∀ m ∈ messages, m.type ∈ strategy.alwaysPreserve ∨
      strategy.importanceThreshold ≤ importanceOf m)
    (hratio : calculateTotalTokens messages ≤
      strategy.maxTokens * strategy.preserveRatio) :
    (prune s messages strategy pruningId now summaryIds).1.messagesRemoved = 0
    ∧ (prune s messages strategy pruningId now
        summaryIds).1.messagesSummarized = 0
    ∧ (prune s messages strategy pruningId now
        summaryIds).1.reductionPercent = 0 := by
  have hperm : (messages.insertionSort byImportanceDesc).Perm messages :=
    List.perm_insertionSort _ _
  have hsum : ((messages.insertionSort byImportanceDesc).map
      (·.metadata.tokenCount)).sum = calculateTotalTokens messages :=
    (hperm.map _).sum_eq
  have hst1 : classifyPhase messages strategy =
      ⟨messages.insertionSort byImportanceDesc, [], [],
       calculateTotalTokens messages⟩ := by
    unfold classifyPhase
    rw [classify_all_preserved strategy _ _
      (fun m hm => hcond m (hperm.mem_iff.mp hm))
      (fun m hm => htok m (hperm.mem_iff.mp hm))
      (by rw [hsum]; simpa using le_of_lt hmax)]
    simp [hsum]
  have hcat : categorizeMessages messages strategy =
      ⟨restoreOriginalOrder (messages.insertionSort byImportanceDesc) messages,
       [], []⟩ := by
    unfold categorizeMessages
    rw [hst1]
    unfold budgetCorrect
    rw [if_neg (by dsimp only; exact not_lt.mpr hratio)]
    rfl
  have hfinal : calculateTotalTokens
      (restoreOriginalOrder (messages.insertionSort byImportanceDesc) messages)
      = calculateTotalTokens messages := by
    have hp2 : (restoreOriginalOrder (messages.insertionSort byImportanceDesc)
        messages).Perm messages :=
      (List.perm_insertionSort _ _).trans hperm
    exact (hp2.map _).sum_eq
  simp only [calculateTotalTokens] at hfinal
  refine ⟨?_, ?_, ?_⟩
  · simp [prune, hcat, createSummaries, segmentConversation, segmentByTopic,
      summariesToMessages, calculateTotalTokens, hfinal]
  · simp [prune, hcat, createSummaries, segmentConversation, segmentByTopic,
      summariesToMessages, calculateTotalTokens, hfinal]
  · simp [prune, hcat, createSummaries, segmentConversation, segmentByTopic,
      summariesToMessages, calculateTotalTokens, hfinal]

/-- **C3 witness** The amended no-op statement at a concrete input. -/
theorem prune_noop_witness :
    0 < calculateTotalTokens [c3wmsg]
    ∧ calculateTotalTokens [c3wmsg] < c3wstrat.maxTokens
    ∧ calculateTotalTokens [c3wmsg] ≤ c3wstrat.maxTokens * c3wstrat.preserveRatio
    ∧ ((prune ⟨[]⟩ [c3wmsg] c3wstrat "prune_w" 0
        (fun _ => "summary_w")).1.messagesRemoved = 0
      ∧ (prune ⟨[]⟩ [c3wmsg] c3wstrat "prune_w" 0
        (fun _ => "summary_w")).1.messagesSummarized = 0
      ∧ (prune ⟨[]⟩ [c3wmsg] c3wstrat "prune_w" 0
        (fun _ => "summary_w")).1.reductionPercent = 0) :=
  ⟨by norm_num [calculateTotalTokens, c3wmsg],
   by norm_num [calculateTotalTokens, c3wmsg, c3wstrat],
   by norm_num [calculateTotalTokens, c3wmsg, c3wstrat],
   prune_noop ⟨[]⟩ [c3wmsg] c3wstrat "prune_w" 0 (fun _ => "summary_w")
     (by intro m hm; rw [List.mem_singleton.mp hm]; norm_num [c3wmsg])
     (by norm_num [calculateTotalTokens, c3wmsg])
     (by norm_num [calculateTotalTokens, c3wmsg, c3wstrat])
     (by
       intro m hm
       rw [List.mem_singleton.mp hm]
       exact Or.inr (by norm_num [c3wstrat, importanceOf, c3wmsg]))
     (by norm_num [calculateTotalTokens, c3wmsg, c3wstrat])⟩

/-! C7: summary truncation versus the level budget. -/

theorem strLength_mk (l : List Char) : (String.mk l).length = l.length := rfl

theorem truncateSummary_length_le (summary : String) (maxLength : ℕ) :
    (truncateSummary summary maxLength).length ≤ maxLength + 3 := by
  unfold truncateSummary
  split
  · omega
  · dsimp only
    split
    · simp only [strLength_mk, List.length_take]
      omega
    · have h3 : (String.mk (summary.data.take maxLength) ++ "...").length
          = (summary.data.take maxLength).length + 3 := by
        rw [String.length_append, strLength_mk]
        rfl
      rw [h3]
      simp only [List.length_take]
      omega

/-- **C7 amended** For every message segment and granularity level, the
generated summary text's length is at most the level budget plus 3: the
sentence-terminator cut stays within the budget, but the hard-truncation
branch appends a three-character ellipsis after cutting at the budget, so
the result can overrun the budget by up to 3 characters. -/
theorem generateSummaryContent_length_le (messages : List ConversationMessage)
    (level : SummaryLevel) :
    (generateSummaryContent messages level).length
      ≤ MAX_SUMMARY_LENGTH level + 3 := by
  dsimp only [generateSummaryContent]
  exact truncateSummary_length_le _ _

/-- **C7 counterexample** The summary generated for the segment `[c7msg]` at
the `immediate` level is 203 characters long, exceeding the 200-character
budget: hard truncation appends an ellipsis past the budget. -/
theorem generated_summary_exceeds_budget :
    (generateSummaryContent [c7msg] SummaryLevel.immediate).length = 203
    ∧ MAX_SUMMARY_LENGTH SummaryLevel.immediate <
      (generateSummaryContent [c7msg] SummaryLevel.immediate).length := by
  have h1 : extractActivities [c7msg] = [] := by decide
  have h2 : extractCodeChanges [c7msg] = ["modified " ++ c7path] := by decide
  have h3 : extractFileOperations [c7msg] = [] := by decide
  have h4 : extractErrors [c7msg] = [] := by decide
  have h5 : determineOutcome [c7msg] = "in progress" := by decide
  have h6 : generateSummaryContent [c7msg] SummaryLevel.immediate
      = truncateSummary c7summary 200 := by
    dsimp only [generateSummaryContent]
    rw [h1, h2, h3, h4, h5]
    congr 1
  have hlen : c7summary.length = 345 := by decide
  have hdot : jsLastIndexOf (c7summary.data.take 200) '.' = -1 := by decide
  have hbang : jsLastIndexOf (c7summary.data.take 200) '!' = -1 := by decide
  have hq : jsLastIndexOf (c7summary.data.take 200) '?' = -1 := by decide
  have h7 : truncateSummary c7summary 200
      = String.mk (c7summary.data.take 200) ++ "..." := by
    unfold truncateSummary
    rw [if_neg (by omega)]
    dsimp only
    rw [hdot, hbang, hq]
    rw [if_neg (by norm_num)]
  have h8 : (String.mk (c7summary.data.take 200) ++ "...").length = 203 := by
    decide
  constructor
  · rw [h6, h7, h8]
  · rw [h6, h7, h8]
    decide

/-! C10: pruning always summarizes at the `session` level. -/

theorem createSummaries_level (messages : List ConversationMessage)
    (level : SummaryLevel) (ids : ℕ → String) (now : ℚ) :
    ∀ sm ∈ createSummaries messages level ids now, sm.level = level := by
  intro sm hsm
  unfold createSummaries at hsm
  rcases List.mem_filterMap.mp hsm with ⟨p, _, hcs⟩
  unfold createSummary at hcs
  split at hcs
  · exact Option.noConfusion hcs
  · dsimp only at hcs
    split at hcs
    · exact Option.noConfusion hcs
    · rw [← Option.some_inj.mp hcs]

/-- **C10** Every summary produced by the pruning operation carries the
`session` granularity: `prune` hands the summarization pool to
`createSummaries` with the `session` level (topic-continuity segmentation),
never `immediate` or `project`, regardless of context and strategy. -/
theorem prune_summaries_session (s : PruningEngineState)
    (messages : List ConversationMessage) (strategy : PruningStrategy)
    (pruningId : String) (now : ℚ) (summaryIds : ℕ → String) :
    (prune s messages strategy pruningId now summaryIds).1.summariesCreated
      = createSummaries (categorizeMessages messages strategy).toSummarize
          SummaryLevel.session summaryIds now
    ∧ ∀ sm ∈ (prune s messages strategy pruningId now
        summaryIds).1.summariesCreated,
      sm.level = SummaryLevel.session :=
  ⟨rfl, fun sm hsm => createSummaries_level _ _ _ _ sm hsm⟩

/-- **C10 witness** A concrete pruning run that produces a summary, and that
summary carries the `session` level. -/
theorem prune_summaries_session_witness :
    c10summary ∈ (prune ⟨[]⟩ [c10msg] c10strat "prune_10" 0
      (fun _ => "summary_10")).1.summariesCreated
    ∧ c10summary.level = SummaryLevel.session := by
  have hcat : (categorizeMessages [c10msg] c10strat).toSummarize = [c10msg] := by
    norm_num [categorizeMessages, classifyPhase, classifyStep, budgetCorrect,
      restoreOriginalOrder, isSummarizable, importanceOf, jsMapGet, jsMapSet,
      MAX_SAFE_INTEGER, jsSpliceStart, List.insertionSort, List.orderedInsert,
      byImportanceDesc, c10msg, c10strat]
  have hseg : segmentConversation [c10msg] SummaryLevel.session = [[c10msg]] := by
    simp [segmentConversation, segmentByTopic, toJsSet,
      hasSignificantFileContextChange, jsSetAdd, c10msg]
  have hgen : generateSummaryContent [c10msg] SummaryLevel.session
      = "Code changes: ts code. Outcome: in progress" := by decide
  have hcs : createSummary [c10msg] SummaryLevel.session "summary_10" 0
      = some c10summary := by
    unfold createSummary
    rw [if_neg (by decide : ¬([c10msg].length = 0))]
    dsimp only
    rw [hgen]
    rw [if_neg (by decide :
      ¬(jsTrim ("Code changes: ts code. Outcome: in progress").data = []))]
    have hts : calculateTokensSaved [c10msg]
        "Code changes: ts code. Outcome: in progress" = 49 := by
      have hlen : ("Code changes: ts code. Outcome: in progress" : String).length
          = 43 := by decide
      norm_num [calculateTokensSaved, estimateTokens, c10msg, hlen]
    rw [hts]
    rfl
  have hL : (prune ⟨[]⟩ [c10msg] c10strat "prune_10" 0
      (fun _ => "summary_10")).1.summariesCreated = [c10summary] := by
    have : (prune ⟨[]⟩ [c10msg] c10strat "prune_10" 0
        (fun _ => "summary_10")).1.summariesCreated
        = createSummaries (categorizeMessages [c10msg] c10strat).toSummarize
            SummaryLevel.session (fun _ => "summary_10") 0 := rfl
    rw [this, hcat]
    unfold createSummaries
    rw [hseg]
    simp [hcs]
  refine ⟨by rw [hL]; exact List.mem_singleton.mpr rfl, ?_⟩
  exact (prune_summaries_session ⟨[]⟩ [c10msg] c10strat "prune_10" 0
    (fun _ => "summary_10")).2 c10summary
    (by rw [hL]; exact List.mem_singleton.mpr rfl)

/-! C5: the IDF's `df` — total occurrences versus documents containing. -/

theorem c5state_eq : c5state = c5stateE := by
  have hp1 : preprocessText "zebra zebra" = ["zebra", "zebra"] := by decide
  have hp2 : preprocessText "cat" = ["cat"] := by decide
  have hp3 : preprocessText "dog" = ["dog"] := by decide
  have hp4 : preprocessText "fox" = ["fox"] := by decide
  simp +decide only [c5state, c5stateE, c5docs, indexDocuments, hp1, hp2, hp3,
    hp4, jsMapGet, jsMapSet, BM25State.init, List.foldl_cons, List.foldl_nil,
    List.map_cons, List.map_nil, List.find?, List.any_cons, List.any_nil]
  norm_num

/-- **C5** On the `c5docs` corpus the code's BM25 score of query `zebra`
against document 0 is `0` — the IDF is fed the term's total occurrence
count (2), making the IDF argument `(4 - 2 + 0.5)/(2 + 0.5) = 1` and the
log zero — while the spec formula with `df = number of documents containing
the term (= 1)` gives a strictly positive score.  The two disagree, so the
code does not implement `IDF = ln((N - df + 0.5)/(df + 0.5))` with `df` the
document frequency. -/
theorem bm25_code_differs_from_spec_formula :
    calculateScore c5state "zebra" 0 = 0
    ∧ 0 < calculateScoreSpec c5state "zebra" 0
    ∧ calculateScore c5state "zebra" 0 ≠ calculateScoreSpec c5state "zebra" 0 := by
  have hq : preprocessText "zebra" = ["zebra"] := by decide
  have h1 : c5stateE.documentStats =
      [ ⟨[("zebra", 2)], 2, 8 / 5⟩, ⟨[("cat", 1)], 1, 4 / 5⟩,
        ⟨[("dog", 1)], 1, 4 / 5⟩, ⟨[("fox", 1)], 1, 4 / 5⟩ ] := rfl
  have h2 : c5stateE.globalTermFreq
      = [("zebra", 2), ("cat", 1), ("dog", 1), ("fox", 1)] := rfl
  have h3 : c5stateE.totalDocuments = 4 := rfl
  have h4 : c5stateE.k1 = 6 / 5 := rfl
  have h5 : c5stateE.b = 3 / 4 := rfl
  have hdf : docFreq c5stateE "zebra" = 1 := by decide
  have hcode : calculateScore c5stateE "zebra" 0 = 0 := by
    rw [calculateScore]
    simp +decide only [hq, h1, h2, h3, h4, h5, List.foldl_cons, List.foldl_nil,
      jsMapGet, List.find?, List.length_cons, List.length_nil]
    norm_num [Real.log_one]
  have hspec : 0 < calculateScoreSpec c5stateE "zebra" 0 := by
    rw [calculateScoreSpec]
    simp +decide only [hq, h1, h3, h4, h5, hdf, List.foldl_cons, List.foldl_nil,
      jsMapGet, List.find?, List.length_cons, List.length_nil]
    norm_num
    exact Real.log_pos (by norm_num)
  rw [c5state_eq]
  exact ⟨hcode, hspec, by rw [hcode]; exact ne_of_lt hspec⟩

/-! C1: the three buckets partition the input. -/

theorem coe_append (l₁ l₂ : List ConversationMessage) :
    ((l₁ ++ l₂ : List ConversationMessage) : Multiset ConversationMessage)
      = (l₁ : Multiset ConversationMessage)
        + (l₂ : Multiset ConversationMessage) := rfl

theorem coe_cons (x : ConversationMessage) (l : List ConversationMessage) :
    ((x :: l : List ConversationMessage) : Multiset ConversationMessage)
      = ({x} : Multiset ConversationMessage)
        + (l : Multiset ConversationMessage) := rfl

theorem coe_nil :
    (([] : List ConversationMessage) : Multiset ConversationMessage) = 0 := rfl

theorem classify_multiset (strategy : PruningStrategy)
    (msgs : List ConversationMessage) :
    ∀ st : ClassifyState,
    (((msgs.foldl (classifyStep strategy) st).preserved : Multiset ConversationMessage)
      + ((msgs.foldl (classifyStep strategy) st).toSummarize : Multiset ConversationMessage)
      + ((msgs.foldl (classifyStep strategy) st).toRemove : Multiset ConversationMessage))
    = (st.preserved : Multiset ConversationMessage)
      + (st.toSummarize : Multiset ConversationMessage)
      + (st.toRemove : Multiset ConversationMessage)
      + (msgs : Multiset ConversationMessage) := by
  induction msgs with
  | nil => intro st; simp
  | cons x xs ih =>
    intro st
    simp only [List.foldl_cons]
    rw [ih]
    unfold classifyStep
    dsimp only
    split
    · simp only [coe_append, coe_cons, coe_nil]
      abel
    · split
      · simp only [coe_append, coe_cons, coe_nil]
        abel
      · simp only [coe_append, coe_cons, coe_nil]
        abel

theorem filter_not_multiset (p : ConversationMessage → Bool)
    (l : List ConversationMessage) :
    ((l.filter p : List ConversationMessage) : Multiset ConversationMessage)
      + ((l.filter (fun m => ¬ p m) : List ConversationMessage) : Multiset ConversationMessage)
      = (l : Multiset ConversationMessage) := by
  have hfun : (fun m => decide (¬ p m = true)) = (fun m => !(p m)) := by
    funext m
    cases p m <;> rfl
  rw [← coe_append]
  exact Multiset.coe_eq_coe.mpr (by rw [hfun]; exact List.filter_append_perm p l)

theorem budgetCorrect_multiset (strategy : PruningStrategy)
    (st : ClassifyState) :
    (((budgetCorrect strategy st).preserved : Multiset ConversationMessage)
      + ((budgetCorrect strategy st).toSummarize : Multiset ConversationMessage)
      + ((budgetCorrect strategy st).toRemove : Multiset ConversationMessage))
    = (st.preserved : Multiset ConversationMessage)
      + (st.toSummarize : Multiset ConversationMessage)
      + (st.toRemove : Multiset ConversationMessage) := by
  unfold budgetCorrect
  dsimp only
  split
  · dsimp only
    simp only [coe_append]
    have htd : ((st.preserved.take (jsSpliceStart st.preserved.length
        ⌊(st.preserved.length : ℚ) * strategy.preserveRatio⌋) : List ConversationMessage) : Multiset ConversationMessage)
        + ((st.preserved.drop (jsSpliceStart st.preserved.length
        ⌊(st.preserved.length : ℚ) * strategy.preserveRatio⌋) : List ConversationMessage) : Multiset ConversationMessage)
        = (st.preserved : Multiset ConversationMessage) := by
      rw [← coe_append]
      rw [List.take_append_drop]
    have hf := filter_not_multiset (fun m => isSummarizable m)
      (st.preserved.drop (jsSpliceStart st.preserved.length
        ⌊(st.preserved.length : ℚ) * strategy.preserveRatio⌋))
    rw [← htd, ← hf]
    abel
  · rfl

theorem admit_multiset (budget : ℚ) (pool : List ConversationMessage) :
    ∀ (fs rem : List ConversationMessage) (t : ℚ),
    ((pool.foldl
      (fun (acc : List ConversationMessage × List ConversationMessage × ℚ) message =>
        if acc.2.2 + message.metadata.tokenCount ≤ budget then
          (acc.1 ++ [message], acc.2.1, acc.2.2 + message.metadata.tokenCount)
        else
          (acc.1, acc.2.1 ++ [message], acc.2.2))
      (fs, rem, t)).1 : Multiset ConversationMessage)
    + ((pool.foldl
      (fun (acc : List ConversationMessage × List ConversationMessage × ℚ) message =>
        if acc.2.2 + message.metadata.tokenCount ≤ budget then
          (acc.1 ++ [message], acc.2.1, acc.2.2 + message.metadata.tokenCount)
        else
          (acc.1, acc.2.1 ++ [message], acc.2.2))
      (fs, rem, t)).2.1 : Multiset ConversationMessage)
    = (fs : Multiset ConversationMessage) + (rem : Multiset ConversationMessage)
      + (pool : Multiset ConversationMessage) := by
  induction pool with
  | nil => intro fs rem t; simp only [List.foldl_nil, coe_nil]; abel
  | cons x xs ih =>
    intro fs rem t
    simp only [List.foldl_cons]
    split
    · rw [ih]
      simp only [coe_append, coe_cons, coe_nil]
      abel
    · rw [ih]
      simp only [coe_append, coe_cons, coe_nil]
      abel

theorem restoreOriginalOrder_perm (l o : List ConversationMessage) :
    (restoreOriginalOrder l o).Perm l := by
  unfold restoreOriginalOrder
  exact List.perm_insertionSort _ _

theorem categorize_multiset (messages : List ConversationMessage)
    (strategy : PruningStrategy) :
    (((categorizeMessages messages strategy).preserved : Multiset ConversationMessage)
      + ((categorizeMessages messages strategy).toSummarize : Multiset ConversationMessage)
      + ((categorizeMessages messages strategy).toRemove : Multiset ConversationMessage))
    = (messages : Multiset ConversationMessage) := by
  unfold categorizeMessages
  dsimp only
  rw [Multiset.coe_eq_coe.mpr (restoreOriginalOrder_perm _ _),
    Multiset.coe_eq_coe.mpr (restoreOriginalOrder_perm _ _),
    Multiset.coe_eq_coe.mpr (restoreOriginalOrder_perm _ _)]
  rw [add_assoc, admit_multiset]
  rw [Multiset.coe_eq_coe.mpr (List.perm_insertionSort byImportanceDesc
    (budgetCorrect strategy (classifyPhase messages strategy)).toSummarize)]
  have hbc := budgetCorrect_multiset strategy (classifyPhase messages strategy)
  have hcl := classify_multiset strategy
    (messages.insertionSort byImportanceDesc) ⟨[], [], [], 0⟩
  have hcl2 : ((classifyPhase messages strategy).preserved : Multiset ConversationMessage)
      + ((classifyPhase messages strategy).toSummarize : Multiset ConversationMessage)
      + ((classifyPhase messages strategy).toRemove : Multiset ConversationMessage)
      = (messages : Multiset ConversationMessage) := by
    unfold classifyPhase
    rw [hcl]
    simp only [coe_nil]
    rw [Multiset.coe_eq_coe.mpr (List.perm_insertionSort byImportanceDesc messages)]
    abel
  rw [← hcl2, ← hbc]
  abel

theorem categorize_ids_multiset (messages : List ConversationMessage)
    (strategy : PruningStrategy) :
    (((categorizeMessages messages strategy).preserved.map (·.id) : List String) : Multiset String)
      + (((categorizeMessages messages strategy).toSummarize.map (·.id) : List String) : Multiset String)
      + (((categorizeMessages messages strategy).toRemove.map (·.id) : List String) : Multiset String)
    = ((messages.map (·.id) : List String) : Multiset String) := by
  have h := congrArg (Multiset.map (fun m : ConversationMessage => m.id))
    (categorize_multiset messages strategy)
  simpa [Multiset.map_coe] using h

/-- **C1** For every non-empty context with pairwise-distinct message
identifiers and every strategy, the three buckets of `categorizeMessages`
(preserved, summarize-source, discarded) carry pairwise-disjoint identifier
sets whose union is exactly the identifier set of the input messages. -/
theorem categorize_partition (messages : List ConversationMessage)
    (strategy : PruningStrategy) (_hne : messages ≠ [])
    (hnd : (messages.map (·.id)).Nodup) :
    ((categorizeMessages messages strategy).preserved.map (·.id)).Disjoint
      ((categorizeMessages messages strategy).toSummarize.map (·.id))
    ∧ ((categorizeMessages messages strategy).preserved.map (·.id)).Disjoint
      ((categorizeMessages messages strategy).toRemove.map (·.id))
    ∧ ((categorizeMessages messages strategy).toSummarize.map (·.id)).Disjoint
      ((categorizeMessages messages strategy).toRemove.map (·.id))
    ∧ ((categorizeMessages messages strategy).preserved.map (·.id)).toFinset
      ∪ ((categorizeMessages messages strategy).toSummarize.map (·.id)).toFinset
      ∪ ((categorizeMessages messages strategy).toRemove.map (·.id)).toFinset
      = (messages.map (·.id)).toFinset := by
  have hm := categorize_ids_multiset messages strategy
  have hcount : ∀ x : String,
      ((categorizeMessages messages strategy).preserved.map (·.id)).count x
      + ((categorizeMessages messages strategy).toSummarize.map (·.id)).count x
      + ((categorizeMessages messages strategy).toRemove.map (·.id)).count x
      = (messages.map (·.id)).count x := by
    intro x
    have h := congrArg (Multiset.count x) hm
    simp only [Multiset.count_add, Multiset.coe_count] at h
    omega
  have hle : ∀ x : String, (messages.map (·.id)).count x ≤ 1 :=
    List.nodup_iff_count_le_one.mp hnd
  refine ⟨?_, ?_, ?_, ?_⟩
  · intro x hxP hxS
    have h1 := List.count_pos_iff.mpr hxP
    have h2 := List.count_pos_iff.mpr hxS
    have h3 := hcount x
    have h4 := hle x
    omega
  · intro x hxP hxR
    have h1 := List.count_pos_iff.mpr hxP
    have h2 := List.count_pos_iff.mpr hxR
    have h3 := hcount x
    have h4 := hle x
    omega
  · intro x hxS hxR
    have h1 := List.count_pos_iff.mpr hxS
    have h2 := List.count_pos_iff.mpr hxR
    have h3 := hcount x
    have h4 := hle x
    omega
  · ext a
    simp only [Finset.mem_union, List.mem_toFinset]
    constructor
    · rintro ((h | h) | h)
      · have h1 := List.count_pos_iff.mpr h
        have h3 := hcount a
        exact List.count_pos_iff.mp (by omega)
      · have h1 := List.count_pos_iff.mpr h
        have h3 := hcount a
        exact List.count_pos_iff.mp (by omega)
      · have h1 := List.count_pos_iff.mpr h
        have h3 := hcount a
        exact List.count_pos_iff.mp (by omega)
    · intro h
      have h1 := List.count_pos_iff.mpr h
      have h3 := hcount a
      by_cases hP : 0 <
        ((categorizeMessages messages strategy).preserved.map (·.id)).count a
      · exact Or.inl (Or.inl (List.count_pos_iff.mp hP))
      by_cases hS : 0 <
        ((categorizeMessages messages strategy).toSummarize.map (·.id)).count a
      · exact Or.inl (Or.inr (List.count_pos_iff.mp hS))
      have hR : 0 <
          ((categorizeMessages messages strategy).toRemove.map (·.id)).count a := by
        omega
      exact Or.inr (List.count_pos_iff.mp hR)

/-- **C1 witness** The partition statement at a concrete two-message
context. -/
theorem categorize_partition_witness :
    [c1msgA, c1msgB] ≠ ([] : List ConversationMessage)
    ∧ ([c1msgA, c1msgB].map (·.id)).Nodup
    ∧ (((categorizeMessages [c1msgA, c1msgB] c1strat).preserved.map (·.id)).Disjoint
        ((categorizeMessages [c1msgA, c1msgB] c1strat).toSummarize.map (·.id))
      ∧ ((categorizeMessages [c1msgA, c1msgB] c1strat).preserved.map (·.id)).Disjoint
        ((categorizeMessages [c1msgA, c1msgB] c1strat).toRemove.map (·.id))
      ∧ ((categorizeMessages [c1msgA, c1msgB] c1strat).toSummarize.map (·.id)).Disjoint
        ((categorizeMessages [c1msgA, c1msgB] c1strat).toRemove.map (·.id))
      ∧ ((categorizeMessages [c1msgA, c1msgB] c1strat).preserved.map (·.id)).toFinset
        ∪ ((categorizeMessages [c1msgA, c1msgB] c1strat).toSummarize.map (·.id)).toFinset
        ∪ ((categorizeMessages [c1msgA, c1msgB] c1strat).toRemove.map (·.id)).toFinset
        = ([c1msgA, c1msgB].map (·.id)).toFinset) :=
  ⟨by simp,
   by decide,
   categorize_partition [c1msgA, c1msgB] c1strat (by simp) (by decide)⟩

end ContextPruning
